import Mathlib

/-!
Shallow embedding of the ts-caldav CalDAV client core.

The definitions below are translated from the repository source:
 * `src/unnamed/part_001` — the `CalDAVClient` class (`resolveUrl`, `buildICSData`,
   `createItem`, `isWeak`, `updateItem`, `diffRefs`, `syncChanges`, `syncTodoChanges`);
 * `src/unnamed/part_000` — the multistatus parsers (`parseCalendars`, `parseEvents`,
   `parseTodos`, `parseRecurrence`);
 * `src/dist/utils/encode.js` — date formatting helpers.

JavaScript strings are modelled as Lean `String`s; JS string primitives
(`startsWith`, `substring`, `trim`, `toLowerCase`, `includes`, `endsWith`,
`slice(0,-1)`, `split(",")`, `join(",")`) are modelled character-wise via
`String.toList`.  The external iCalendar codec (ical.js) is modelled at the
structured property-tree boundary, as the specification frames it: text
serialization followed by reparsing is the identity on the tree.
-/

namespace TsCalDAV

/-- Model of the JavaScript `s.startsWith(p)` primitive. -/
def jsStartsWith (s p : String) : Bool :=
  p.toList.isPrefixOf s.toList

/-- Model of the JavaScript `s.endsWith(p)` primitive. -/
def jsEndsWith (s p : String) : Bool :=
  p.toList.isSuffixOf s.toList

/-- Model of the JavaScript `s.substring(n)` primitive (drop the first `n` characters). -/
def jsDrop (s : String) (n : Nat) : String :=
  String.mk (s.toList.drop n)

/-- Model of the JavaScript `s.slice(0, -1)` primitive (drop the last character). -/
def jsDropLast (s : String) : String :=
  String.mk s.toList.dropLast

/-- Model of the JavaScript `s.trim()` primitive. -/
def jsTrim (s : String) : String :=
  String.mk (((s.toList.dropWhile Char.isWhitespace).reverse.dropWhile
    Char.isWhitespace).reverse)

/-- Model of the JavaScript `s.toLowerCase()` primitive. -/
def jsToLower (s : String) : String :=
  String.mk (s.toList.map Char.toLower)

/-- Model of the JavaScript `s.includes(pat)` substring test. -/
def jsIncludes (s pat : String) : Bool :=
  (List.range (s.toList.length + 1)).any (fun i => pat.toList.isPrefixOf (s.toList.drop i))

/-- Model of the JavaScript `s.split(",")` primitive. -/
def jsSplitComma (s : String) : List String :=
  (s.toList.splitOn ',').map String.mk

/-- Model of the JavaScript `l.join(",")` primitive. -/
def jsJoinComma (l : List String) : String :=
  String.mk (List.intercalate [','] (l.map String.toList))

/-- Model of the JavaScript string length (character count). -/
def jsLength (s : String) : Nat :=
  s.toList.length

/-! ## SyncEngine: item references and `diffRefs` (part_001 lines 678–698) -/

/-- Item reference (`EventRef`/`TodoRef` in the source): an href paired with its etag. -/
structure ItemRef where
  href : String
  etag : String
deriving DecidableEq, Repr

/-- Model of `new Map(refs.map(i => [i.href, i.etag])).has(h)`. -/
def mapHas (refs : List ItemRef) (h : String) : Bool :=
  refs.any (fun r => r.href == h)

/-- Model of `new Map(refs.map(i => [i.href, i.etag])).get(h)`.
JS `Map` construction keeps the last binding for a duplicated key, hence the
search over the reversed list. -/
def mapGet (refs : List ItemRef) (h : String) : Option String :=
  (refs.reverse.find? (fun r => r.href == h)).map ItemRef.etag

/-- Result record of `diffRefs`: new/updated/deleted href lists. -/
structure DiffResult where
  newItems : List String
  updatedItems : List String
  deletedItems : List String
deriving DecidableEq, Repr

/-- Embedding of `diffRefs(remoteRefs, localRefs)` (part_001 lines 678–698): the
first loop pushes each remote href into `newItems` when the local map lacks it,
else into `updatedItems` when the local etag differs; the second loop pushes
each local href absent from the remote map into `deletedItems`. -/
def diffRefs (remoteRefs localRefs : List ItemRef) : DiffResult :=
  { newItems :=
      (remoteRefs.filter (fun r => !(mapHas localRefs r.href))).map ItemRef.href
    updatedItems :=
      (remoteRefs.filter (fun r =>
        mapHas localRefs r.href && !(mapGet localRefs r.href == some r.etag))).map ItemRef.href
    deletedItems :=
      (localRefs.filter (fun r => !(mapHas remoteRefs r.href))).map ItemRef.href }

/-! ## SyncEngine: `syncChanges` / `syncTodoChanges` (part_001 lines 706–754)

The two network reads of each sync operation are modelled by a `ServerState`
oracle: `ctag` is the value `getCtag` would return, and `eventRefs`/`todoRefs`
the reference lists `getItemRefs` would return for `VEVENT`/`VTODO`.  The
returned `Bool` records whether the component reference query
(`getItemRefs`) was issued. -/

/-- Oracle for the server answers consumed by a sync call. -/
structure ServerState where
  ctag : String
  eventRefs : List ItemRef
  todoRefs : List ItemRef

/-- Result of `syncChanges`/`syncTodoChanges` (field names generic over kind). -/
structure SyncResult where
  changed : Bool
  newCtag : String
  newItems : List String
  updatedItems : List String
  deletedItems : List String
deriving DecidableEq, Repr

/-- Embedding of `syncChanges(calendarUrl, ctag, localEvents)` (part_001 lines
706–726).  `!ctag` on a JS string is true exactly for the empty string.  The
second component records whether `getItemRefs(calendarUrl, "VEVENT")` ran. -/
def syncChanges (srv : ServerState) (ctag : String) (localEvents : List ItemRef) :
    SyncResult × Bool :=
  let remoteCtag := srv.ctag
  if ctag = "" ∨ ctag = remoteCtag then
    ({ changed := false, newCtag := remoteCtag
       newItems := [], updatedItems := [], deletedItems := [] }, false)
  else
    let remoteRefs := srv.eventRefs
    let d := diffRefs remoteRefs localEvents
    ({ changed := true, newCtag := remoteCtag
       newItems := d.newItems, updatedItems := d.updatedItems
       deletedItems := d.deletedItems }, true)

/-- Embedding of `syncTodoChanges(calendarUrl, ctag, localTodos)` (part_001
lines 734–754); identical to `syncChanges` except that the reference list
fetched is the `VTODO` one. -/
def syncTodoChanges (srv : ServerState) (ctag : String) (localTodos : List ItemRef) :
    SyncResult × Bool :=
  let remoteCtag := srv.ctag
  if ctag = "" ∨ ctag = remoteCtag then
    ({ changed := false, newCtag := remoteCtag
       newItems := [], updatedItems := [], deletedItems := [] }, false)
  else
    let remoteRefs := srv.todoRefs
    let d := diffRefs remoteRefs localTodos
    ({ changed := true, newCtag := remoteCtag
       newItems := d.newItems, updatedItems := d.updatedItems
       deletedItems := d.deletedItems }, true)

/-! ## DiscoveryResolver: `resolveUrl` (part_001 lines 15–22) -/

/-- Embedding of `resolveUrl(path)` (part_001 lines 15–22).  The base URL's
pathname (`new URL(this.baseUrl).pathname`) is passed in as `basePath`. -/
def resolveUrl (basePath path : String) : String :=
  if jsStartsWith path basePath ∧ basePath ≠ "/" then
    let stripped := jsDrop path (jsLength basePath)
    if jsStartsWith stripped "/" then stripped else "/" ++ stripped
  else
    path

/-! ## ConcurrencyGuard: `isWeak` and the update If-Match header
(part_001 lines 453–474) -/

/-- Embedding of `isWeak(etag)` (part_001 lines 453–455):
`etag?.startsWith('W/"') || etag?.startsWith("W/")`; an absent etag is falsy. -/
def isWeak (etag : Option String) : Bool :=
  match etag with
  | none => false
  | some e => jsStartsWith e "W/\"" || jsStartsWith e "W/"

/-- Model of `etag?.replace(/^W\//, "")`: strip one leading weak marker. -/
def stripWeakMarker (e : String) : String :=
  if jsStartsWith e "W/" then jsDrop e 2 else e

/-- Embedding of the If-Match computation in `updateItem` (part_001 lines
465–471): `ifMatch = item.etag?.replace(/^W\//, "").trim()`;
`ifMatchValue = isWeak(ifMatch) ? undefined : ifMatch`; the header is sent
only when `ifMatchValue` is truthy (a JS empty string is falsy). -/
def updateIfMatchHeader (etag : Option String) : Option String :=
  let ifMatch := etag.map (fun e => jsTrim (stripWeakMarker e))
  let ifMatchValue := if isWeak ifMatch then none else ifMatch
  match ifMatchValue with
  | none => none
  | some v => if v = "" then none else some v

/-! ## ConcurrencyGuard: `createItem` (part_001 lines 418–452) -/

/-- Model of `itemType[0].toUpperCase() + itemType.slice(1)` for a nonempty
item-type string. -/
def capitalizeFirst (s : String) : String :=
  match s.toList with
  | [] => ""
  | c :: rest => String.mk (c.toUpper :: rest)

/-- Target href of a create (part_001 lines 424–427): a trailing slash on the
calendar URL is removed, then `/{uid}.ics` is appended. -/
def createHref (calendarUrl uid : String) : String :=
  (if jsEndsWith calendarUrl "/" then jsDropLast calendarUrl else calendarUrl)
    ++ "/" ++ uid ++ ".ics"

/-- The conditional header sent by every create (part_001 line 433). -/
def createIfNoneMatch : String := "*"

/-- Outcome classification of a create PUT. -/
inductive CreateOutcome where
  | ok (uid href etag : String)
  | uidCollision (msg : String)
  | otherError (msg : String)
deriving DecidableEq, Repr

/-- Embedding of the status handling of `createItem` (part_001 lines 430–451):
`validateStatus` accepts exactly 201 and 204; any other status is thrown by
the transport, and the catch block maps status 412 to the UID-collision error
message naming the item kind. -/
def createItemOutcome (itemType calendarUrl uid : String) (status : Nat)
    (etagHeader : Option String) : CreateOutcome :=
  if status = 201 ∨ status = 204 then
    .ok uid (createHref calendarUrl uid) (etagHeader.getD "")
  else if status = 412 then
    .uidCollision (capitalizeFirst itemType ++ " with the specified uid already exists.")
  else
    .otherError ("Failed to create " ++ itemType ++ ".")

/-! ## ItemCodec: the iCalendar property tree

ical.js is the external calendar-grammar codec (out of scope per the spec);
the core exchanges structured component/property trees with it.  A component
has a name, a list of properties (name, parameters, value) and a list of
subcomponents.  Serializing a tree to text and reparsing it is modelled as
the identity on the tree, with property names in their parsed (lowercase)
form. -/

/-- JavaScript `Date`, viewed as a UTC instant (millisecond part ignored). -/
structure JSDate where
  year : Nat
  month : Nat
  day : Nat
  hour : Nat
  minute : Nat
  second : Nat
deriving DecidableEq, Repr

/-- Model of `ICAL.Time`: calendar fields plus the date-only flag. -/
structure ICalTime where
  year : Nat
  month : Nat
  day : Nat
  hour : Nat
  minute : Nat
  second : Nat
  isDate : Bool
deriving DecidableEq, Repr

/-- Model of `ICAL.Time.fromJSDate(d, true)`: UTC fields, a date-time value. -/
def ICalTime.fromJSDate (d : JSDate) : ICalTime :=
  ⟨d.year, d.month, d.day, d.hour, d.minute, d.second, false⟩

/-- Model of `t.toJSDate()` for a time value (UTC fields back to an instant). -/
def ICalTime.toJSDate (t : ICalTime) : JSDate :=
  ⟨t.year, t.month, t.day, t.hour, t.minute, t.second⟩

/-- Model of `ICAL.Time.fromDateString(d.toISOString().split("T")[0])`: the
calendar date of the instant, as a date-only value. -/
def ICalTime.fromDateOnly (d : JSDate) : ICalTime :=
  ⟨d.year, d.month, d.day, 0, 0, 0, true⟩

/-- The `rruleProps` object assembled by `buildICSData` (part_001 lines
287–303): only the keys that were set are present; `BYDAY`/`BYMONTHDAY`/
`BYMONTH` are comma-joined strings.  `UNTIL` is kept as the structured time
whose rendering the source stores. -/
structure RRuleProps where
  FREQ : Option String
  INTERVAL : Option Nat
  COUNT : Option Nat
  UNTIL : Option ICalTime
  BYDAY : Option String
  BYMONTHDAY : Option String
  BYMONTH : Option String
deriving DecidableEq, Repr

/-- Value of an iCalendar property in the tree. -/
inductive PropValue where
  | str : String → PropValue
  | time : ICalTime → PropValue
  | recur : RRuleProps → PropValue
  | num : Int → PropValue
deriving DecidableEq, Repr

/-- Property node: name, parameters, value. -/
structure ICalProp where
  name : String
  params : List (String × String)
  value : PropValue
deriving DecidableEq, Repr

/-- Component node of the iCalendar tree. -/
inductive ICalComp where
  | mk (name : String) (props : List ICalProp) (subs : List ICalComp)

/-- Name of a component. -/
def ICalComp.name : ICalComp → String
  | .mk n _ _ => n

/-- Properties of a component. -/
def ICalComp.props : ICalComp → List ICalProp
  | .mk _ p _ => p

/-- Subcomponents of a component. -/
def ICalComp.subs : ICalComp → List ICalComp
  | .mk _ _ s => s

/-- Model of `comp.getFirstProperty(name)`. -/
def ICalComp.getFirstProperty (c : ICalComp) (n : String) : Option ICalProp :=
  c.props.find? (fun p => p.name == n)

/-- Model of `comp.getFirstPropertyValue(name)`. -/
def ICalComp.getFirstPropertyValue (c : ICalComp) (n : String) : Option PropValue :=
  (c.getFirstProperty n).map ICalProp.value

/-- Model of `comp.getAllProperties(name)`. -/
def ICalComp.getAllProperties (c : ICalComp) (n : String) : List ICalProp :=
  c.props.filter (fun p => p.name == n)

/-- Model of `comp.getAllSubcomponents(name)`. -/
def ICalComp.getAllSubcomponents (c : ICalComp) (n : String) : List ICalComp :=
  c.subs.filter (fun s => s.name == n)

/-- Model of `prop.getParameter(name)` (parameters single-valued here, so the
source's `normalizeParam` is the identity). -/
def ICalProp.getParameter (p : ICalProp) (n : String) : Option String :=
  (p.params.find? (fun q => q.1 == n)).map Prod.snd

/-- Left-pad a numeral to two digits. -/
def padTwo (n : Nat) : String :=
  if n < 10 then "0" ++ toString n else toString n

/-- Rendering of a time value, as `ICAL.Time.toString` would produce. -/
def ICalTime.render (t : ICalTime) : String :=
  if t.isDate then
    toString t.year ++ padTwo t.month ++ padTwo t.day
  else
    toString t.year ++ padTwo t.month ++ padTwo t.day ++ "T" ++
      padTwo t.hour ++ padTwo t.minute ++ padTwo t.second ++ "Z"

/-- Model of the JavaScript `v.toString()` on a property value. -/
def PropValue.jsToString : PropValue → String
  | .str s => s
  | .time t => t.render
  | .recur _ => ""
  | .num n => toString n

/-- String extraction (`typeof v === "string"` filter). -/
def PropValue.asString : PropValue → Option String
  | .str s => some s
  | _ => none

/-- Time extraction; a non-time value where the source calls `.toJSDate()`
models a thrown TypeError. -/
def PropValue.asTime : PropValue → Option ICalTime
  | .time t => some t
  | _ => none

/-- JavaScript falsiness of a property value. -/
def PropValue.jsFalsy : PropValue → Bool
  | .str s => s = ""
  | .num n => n = 0
  | _ => false

/-! ## Domain model (src/models): recurrence rules, alarms, events, todos -/

/-- Domain `RecurrenceRule`. -/
structure RecurrenceRule where
  freq : Option String
  interval : Option Nat
  count : Option Nat
  «until» : Option JSDate
  byday : Option (List String)
  bymonthday : Option (List Int)
  bymonth : Option (List Nat)
deriving DecidableEq, Repr

/-- Domain `Alarm`: tagged by the `action` string. -/
inductive Alarm where
  | display (trigger : String) (description : Option String)
  | email (trigger : String) (description : Option String) (summary : Option String)
      (attendees : List String)
  | audio (trigger : String)
deriving DecidableEq, Repr

/-- Domain `Event`. -/
structure Event where
  uid : String
  summary : String
  start : JSDate
  «end» : JSDate
  description : Option String
  location : Option String
  etag : String
  href : String
  wholeDay : Bool
  recurrenceRule : Option RecurrenceRule
  startTzid : Option String
  endTzid : Option String
  alarms : List Alarm
deriving DecidableEq, Repr

/-- Domain `Todo`. -/
structure Todo where
  uid : Option String
  summary : String
  start : Option JSDate
  due : Option JSDate
  completed : Option JSDate
  status : Option String
  description : Option String
  location : Option String
  etag : String
  href : String
  alarms : List Alarm
  sortOrder : Option Int
deriving DecidableEq, Repr

/-- Event fields accepted by `buildICSData` (uid/href/etag are supplied
separately on create). -/
structure EventInput where
  summary : String
  start : JSDate
  «end» : JSDate
  description : Option String
  location : Option String
  wholeDay : Bool
  recurrenceRule : Option RecurrenceRule
  startTzid : Option String
  endTzid : Option String
  alarms : List Alarm
deriving DecidableEq, Repr

/-! ## Recurrence codec boundary -/

/-- Model of `ICAL.Recur` as produced by `ICAL.Recur.fromString`: `interval`
defaults to 1 when the rule text carries no `INTERVAL` part; `freq`, `count`
and `until` stay unset when absent; the `parts` lists hold the split values. -/
structure ICalRecur where
  freq : Option String
  interval : Nat
  count : Option Nat
  «until» : Option ICalTime
  partsBYDAY : Option (List String)
  partsBYMONTHDAY : Option (List Int)
  partsBYMONTH : Option (List Nat)
deriving DecidableEq, Repr

/-- Composite of the external codec pair on a recurrence value: serializing
the `rruleProps` object to `KEY=value;…` text and reparsing it with
`ICAL.Recur.fromString`.  Comma-joined list parts come back split; numeric
parts come back as numbers; `INTERVAL` defaults to 1. -/
def recurOfProps (p : RRuleProps) : ICalRecur :=
  { freq := p.FREQ
    interval := p.INTERVAL.getD 1
    count := p.COUNT
    «until» := p.UNTIL
    partsBYDAY := p.BYDAY.map jsSplitComma
    partsBYMONTHDAY := p.BYMONTHDAY.map (fun s => (jsSplitComma s).filterMap String.toInt?)
    partsBYMONTH := p.BYMONTH.map (fun s => (jsSplitComma s).filterMap String.toNat?) }

/-- Embedding of the `freqMap` lookup in `parseRecurrence` (part_000 lines
33–39): only the four known frequencies map through; anything else becomes
`undefined`. -/
def freqMap (f : String) : Option String :=
  if f = "DAILY" ∨ f = "WEEKLY" ∨ f = "MONTHLY" ∨ f = "YEARLY" then some f else none

/-- Embedding of `parseRecurrence(recur)` (part_000 lines 32–58): `count` is
dropped when falsy, `until` converted to a JS date, the `parts` lists copied
through. -/
def parseRecurrence (recur : ICalRecur) : RecurrenceRule :=
  { freq := recur.freq.bind freqMap
    interval := some recur.interval
    count := recur.count.bind (fun c => if c = 0 then none else some c)
    «until» := recur.until.map ICalTime.toJSDate
    byday := recur.partsBYDAY
    bymonthday := recur.partsBYMONTHDAY
    bymonth := recur.partsBYMONTH }

/-! ## ItemCodec: `buildICSData` (part_001 lines 252–327) -/

/-- JavaScript truthiness guard on an optional string (`""` is falsy). -/
def jsTruthyStr : Option String → Option String
  | some s => if s = "" then none else some s
  | none => none

/-- JavaScript truthiness guard on an optional number (`0` is falsy). -/
def jsTruthyNat : Option Nat → Option Nat
  | some n => if n = 0 then none else some n
  | none => none

/-- The `rruleProps` object built in part_001 lines 286–303: each key is set
only when the corresponding field is truthy (arrays are always truthy, so
`byday` and friends pass through as comma-joined strings whenever present). -/
def rrulePropsOf (r : RecurrenceRule) : RRuleProps :=
  { FREQ := jsTruthyStr r.freq
    INTERVAL := jsTruthyNat r.interval
    COUNT := jsTruthyNat r.count
    UNTIL := r.until.map ICalTime.fromJSDate
    BYDAY := r.byday.map jsJoinComma
    BYMONTHDAY := r.bymonthday.map (fun l => jsJoinComma (l.map toString))
    BYMONTH := r.bymonth.map (fun l => jsJoinComma (l.map toString)) }

/-- VALARM subcomponent built for one alarm (part_001 lines 306–323):
trigger and action first, then the action-specific properties (each guarded
by JS truthiness of the optional field). -/
def buildVAlarm (a : Alarm) : ICalComp :=
  match a with
  | .display trig desc =>
    .mk "valarm"
      ([⟨"trigger", [], .str trig⟩, ⟨"action", [], .str "DISPLAY"⟩] ++
        (match desc with
         | some d => if d = "" then [] else [⟨"description", [], .str d⟩]
         | none => []))
      []
  | .email trig desc summ attendees =>
    .mk "valarm"
      ([⟨"trigger", [], .str trig⟩, ⟨"action", [], .str "EMAIL"⟩] ++
        (match summ with
         | some s => if s = "" then [] else [⟨"summary", [], .str s⟩]
         | none => []) ++
        (match desc with
         | some d => if d = "" then [] else [⟨"description", [], .str d⟩]
         | none => []) ++
        attendees.map (fun x => ⟨"attendee", [], .str x⟩))
      []
  | .audio trig =>
    .mk "valarm" [⟨"trigger", [], .str trig⟩, ⟨"action", [], .str "AUDIO"⟩] []

/-- The DTSTART/DTEND properties built by part_001 lines 261–282: whole-day
events get date-only values with no parameters; timed events get UTC
date-times, with a supplied timezone identifier attached verbatim as a
`tzid` parameter. -/
def buildDtProps (event : EventInput) : List ICalProp :=
  if event.wholeDay then
    [⟨"dtstart", [], .time (ICalTime.fromDateOnly event.start)⟩,
     ⟨"dtend", [], .time (ICalTime.fromDateOnly event.«end»)⟩]
  else
    (match event.startTzid with
     | some tz => [⟨"dtstart", [("tzid", tz)], .time (ICalTime.fromJSDate event.start)⟩]
     | none => [⟨"dtstart", [], .time (ICalTime.fromJSDate event.start)⟩]) ++
    (match event.endTzid with
     | some tz => [⟨"dtend", [("tzid", tz)], .time (ICalTime.fromJSDate event.«end»)⟩]
     | none => [⟨"dtend", [], .time (ICalTime.fromJSDate event.«end»)⟩])

/-- Embedding of `buildICSData(event, uid)` (part_001 lines 252–327) at the
property-tree level.  `now` is the instant stamped into DTSTAMP.  The
VCALENDAR carries version, method and prodid; the single VEVENT carries uid,
dtstamp, the start/end properties, summary, description and location
(defaulted to `""`), the RRULE when a recurrence rule is present, and one
VALARM per alarm. -/
def buildICSData (prodId : String) (event : EventInput) (uid : String) (now : JSDate) :
    ICalComp :=
  .mk "vcalendar"
    [⟨"version", [], .str "2.0"⟩,
     ⟨"method", [], .str "REQUEST"⟩,
     ⟨"prodid", [], .str prodId⟩]
    [.mk "vevent"
      ([⟨"uid", [], .str uid⟩,
        ⟨"dtstamp", [], .time (ICalTime.fromJSDate now)⟩] ++
       buildDtProps event ++
       [⟨"summary", [], .str event.summary⟩,
        ⟨"description", [], .str (event.description.getD "")⟩,
        ⟨"location", [], .str (event.location.getD "")⟩] ++
       (match event.recurrenceRule with
        | some r => [⟨"rrule", [], .recur (rrulePropsOf r)⟩]
        | none => []))
      (event.alarms.map buildVAlarm)]

/-! ## ResponseParser: VALARM and VEVENT decoding (part_000 lines 101–197) -/

/-- Embedding of the VALARM loop shared by `parseEvents` and `parseTodos`
(part_000 lines 142–172): an alarm missing (or with a falsy) action or
trigger is skipped; `DISPLAY`/`EMAIL`/`AUDIO` build the tagged variants;
any other action is dropped. -/
def decodeAlarms (valarms : List ICalComp) : List Alarm :=
  valarms.filterMap fun valarm =>
    match valarm.getFirstPropertyValue "action", valarm.getFirstPropertyValue "trigger" with
    | some av, some tv =>
      let trigger := tv.jsToString
      if av.jsFalsy || (trigger == "") then none
      else if av == .str "DISPLAY" then
        some (.display trigger
          ((valarm.getFirstPropertyValue "description").map PropValue.jsToString))
      else if av == .str "EMAIL" then
        some (.email trigger
          ((valarm.getFirstPropertyValue "description").map PropValue.jsToString)
          ((valarm.getFirstPropertyValue "summary").map PropValue.jsToString)
          ((valarm.getAllProperties "attendee").filterMap (fun p => p.value.asString)))
      else if av == .str "AUDIO" then
        some (.audio trigger)
      else none
    | _, _ => none

/-- The `summary || "Untitled …"` defaulting shared by both decoders. -/
def summaryOrDefault (c : ICalComp) (deflt : String) : String :=
  match (c.getFirstProperty "summary").map (fun p => p.value.jsToString) with
  | some s => if s = "" then deflt else s
  | none => deflt

/-- The `value || undefined` defaulting used for description/location. -/
def strFieldOrNone (c : ICalComp) (n : String) : Option String :=
  (c.getFirstProperty n).bind fun p =>
    let s := p.value.jsToString
    if s = "" then none else some s

/-- Embedding of the per-VEVENT body of `parseEvents` (part_000 lines
123–190).  `none` models the exception thrown when DTSTART is absent or not
a date value (`icalEvent.startDate.isDate` on null / `.toJSDate()` on a
non-time), which the surrounding `try` turns into dropping the rest of the
entry.  A missing DTEND falls back to the start instant (the source's
`?? startDate`, matching the spec invariant that end defaults to start). -/
def decodeVEvent (vevent : ICalComp) (etag href : String) : Option Event :=
  match (vevent.getFirstProperty "dtstart").map ICalProp.value with
  | none => none
  | some v =>
    match v.asTime with
    | none => none
    | some startT =>
      let isWholeDay := startT.isDate
      let startDate := startT.toJSDate
      let endResult : Option JSDate :=
        match vevent.getFirstProperty "dtend" with
        | none => some startDate
        | some p => (p.value.asTime).map ICalTime.toJSDate
      match endResult with
      | none => none
      | some endDate =>
        some
          { uid := ((vevent.getFirstProperty "uid").map
              (fun p => p.value.jsToString)).getD ""
            summary := summaryOrDefault vevent "Untitled Event"
            start := startDate
            «end» := endDate
            description := strFieldOrNone vevent "description"
            location := strFieldOrNone vevent "location"
            etag := etag
            href := href
            wholeDay := isWholeDay
            recurrenceRule :=
              (vevent.getFirstProperty "rrule").bind fun p =>
                match p.value with
                | .recur rp => some (parseRecurrence (recurOfProps rp))
                | _ => none
            startTzid := (vevent.getFirstProperty "dtstart").bind
              (fun p => p.getParameter "tzid")
            endTzid := (vevent.getFirstProperty "dtend").bind
              (fun p => p.getParameter "tzid")
            alarms := decodeAlarms (vevent.getAllSubcomponents "valarm") }

/-- Processes the VEVENT list of one entry in order; a thrown per-event
decode (`none`) aborts the loop, keeping the events already pushed — this is
the `try`/`catch` around the whole entry body. -/
def decodeVEventList (etag href : String) : List ICalComp → List Event
  | [] => []
  | v :: rest =>
    match decodeVEvent v etag href with
    | some e => e :: decodeVEventList etag href rest
    | none => []

/-- Decodes all VEVENT subcomponents of a parsed VCALENDAR tree. -/
def decodeVEvents (vcal : ICalComp) (etag href : String) : List Event :=
  decodeVEventList etag href (vcal.getAllSubcomponents "vevent")

/-- One multistatus entry as consumed by `parseEvents`/`parseTodos`: the
href, the reported etag, and the `calendar-data` payload — absent, a text
blob the codec rejects (`Except.error`), or the parsed tree (`Except.ok`). -/
structure ObjResponse where
  href : String
  getetag : Option String
  calendarData : Option (Except String ICalComp)

/-- Embedding of `parseEvents` over the decoded multistatus entry list
(part_000 lines 101–197): entries without calendar-data are skipped, a codec
failure is caught and logged (the entry contributes nothing), and each
well-formed entry contributes its decoded events annotated with
`getetag || ""` and the entry href. -/
def parseEvents (rs : List ObjResponse) : List Event :=
  rs.flatMap fun obj =>
    match obj.calendarData with
    | none => []
    | some (.error _) => []
    | some (.ok vcal) => decodeVEvents vcal (obj.getetag.getD "") obj.href

/-! ## ResponseParser: VTODO decoding (part_000 lines 199–297) -/

/-- JavaScript `Number(v)` coercion on a property value (best effort). -/
def jsNumber : PropValue → Int
  | .num n => n
  | .str s => (String.toInt? s).getD 0
  | _ => 0

/-- Reads an optional date property of a VTODO (`prop ?
prop.getFirstValue().toJSDate() : undefined`); the outer `none` models the
TypeError thrown when the property exists but holds no time value. -/
def todoTimeField (vtodo : ICalComp) (n : String) : Option (Option JSDate) :=
  match vtodo.getFirstProperty n with
  | none => some none
  | some p =>
    match p.value.asTime with
    | some t => some (some t.toJSDate)
    | none => none

/-- Embedding of the per-VTODO body of `parseTodos` (part_000 lines
221–290); `none` models a thrown decode error. -/
def decodeVTodo (vtodo : ICalComp) (etag href : String) : Option Todo :=
  match todoTimeField vtodo "dtstart", todoTimeField vtodo "due",
      todoTimeField vtodo "completed" with
  | some start, some due, some completed =>
    some
      { uid := (vtodo.getFirstProperty "uid").map (fun p => p.value.jsToString)
        summary := summaryOrDefault vtodo "Untitled Todo"
        start := start
        due := due
        completed := completed
        status := (vtodo.getFirstProperty "status").map (fun p => p.value.jsToString)
        description := (vtodo.getFirstProperty "description").map
          (fun p => p.value.jsToString)
        location := (vtodo.getFirstProperty "location").map (fun p => p.value.jsToString)
        etag := etag
        href := href
        alarms := decodeAlarms (vtodo.getAllSubcomponents "valarm")
        sortOrder := (vtodo.getFirstProperty "x-apple-sort-order").map
          (fun p => jsNumber p.value) }
  | _, _, _ => none

/-- Processes the VTODO list of one entry in order, aborting on a thrown
decode while keeping the todos already pushed. -/
def decodeVTodoList (etag href : String) : List ICalComp → List Todo
  | [] => []
  | v :: rest =>
    match decodeVTodo v etag href with
    | some t => t :: decodeVTodoList etag href rest
    | none => []

/-- Decodes all VTODO subcomponents of a parsed VCALENDAR tree. -/
def decodeVTodos (vcal : ICalComp) (etag href : String) : List Todo :=
  decodeVTodoList etag href (vcal.getAllSubcomponents "vtodo")

/-- Embedding of `parseTodos` over the decoded multistatus entry list
(part_000 lines 199–297), with the same skip/catch structure as
`parseEvents`. -/
def parseTodos (rs : List ObjResponse) : List Todo :=
  rs.flatMap fun obj =>
    match obj.calendarData with
    | none => []
    | some (.error _) => []
    | some (.ok vcal) => decodeVTodos vcal (obj.getetag.getD "") obj.href

/-! ## ResponseParser: `parseCalendars` (part_000 lines 60–99) -/

/-- Successful property block of one calendar-listing entry: the extracted
display name, ctag, and the `comp` name attributes of the
supported-calendar-component-set. -/
structure CalProp where
  displayname : Option String
  getctag : Option String
  comp : List String
deriving DecidableEq, Repr

/-- One propstat block: its status line and (optional) property payload. -/
structure CalPropstat where
  status : Option String
  prop : Option CalProp
deriving DecidableEq, Repr

/-- One calendar-listing multistatus entry. -/
structure CalResponse where
  href : String
  propstats : List CalPropstat
deriving DecidableEq, Repr

/-- Domain `Calendar`. -/
structure Calendar where
  displayName : String
  url : String
  ctag : Option String
  supportedComponents : List String
deriving DecidableEq, Repr

/-- The six component kinds the listing recognizes (part_000 lines 80–87). -/
def knownComponents : List String :=
  ["VEVENT", "VTODO", "VJOURNAL", "VFREEBUSY", "VTIMEZONE", "VAVAILABILITY"]

/-- The propstat success test (part_000 lines 72–73): the status is a string
containing `"200 ok"` case-insensitively. -/
def okStatus (p : CalPropstat) : Bool :=
  match p.status with
  | some s => jsIncludes (jsToLower s) "200 ok"
  | none => false

/-- Embedding of the propstat selection (part_000 lines 72–73): the first
block passing the success test. -/
def okPropstat (propstats : List CalPropstat) : Option CalPropstat :=
  propstats.find? okStatus

/-- Component names of the selected block intersected with the known kinds
(part_000 lines 77–87): `toArray(prop?.comp).map(c => c.name).filter(known)`. -/
def supportedOf (ps : CalPropstat) : List String :=
  ((ps.prop.map CalProp.comp).getD []).filter (fun n => knownComponents.contains n)

/-- Embedding of the per-entry body of `parseCalendars` (part_000 lines
70–97): entries without a successful propstat are skipped; component names
are intersected with the known kinds; the calendar is kept only when the
intersection contains VEVENT or VTODO. -/
def processCalResponse (res : CalResponse) : Option Calendar :=
  match okPropstat res.propstats with
  | none => none
  | some ps =>
    let supportedComponents := supportedOf ps
    if !(supportedComponents.contains "VEVENT") && !(supportedComponents.contains "VTODO")
    then none
    else
      some
        { displayName := (ps.prop.bind CalProp.displayname).getD ""
          url := res.href
          ctag := ps.prop.bind CalProp.getctag
          supportedComponents := supportedComponents }

/-- Embedding of `parseCalendars` (part_000 lines 60–99). -/
def parseCalendars (rs : List CalResponse) : List Calendar :=
  rs.filterMap processCalResponse

/-! ## Theorems -/

/-- Character-list view of string concatenation. -/
theorem toList_append (a b : String) : (a ++ b).toList = a.toList ++ b.toList := by
  simp [String.toList, String.data_append]

/-- A string prefixed with a slash starts with a slash. -/
theorem jsStartsWith_slash_append (s : String) : jsStartsWith ("/" ++ s) "/" = true := by
  simp [jsStartsWith, toList_append]

/-- C7: path normalization — when the path starts with the base path and the
base path is not the root, `resolveUrl` strips the prefix and guarantees a
leading slash; in every other case it returns the path unchanged. -/
theorem resolveUrl_spec (basePath path : String) :
    (jsStartsWith path basePath = true → basePath ≠ "/" →
      resolveUrl basePath path =
        (if jsStartsWith (jsDrop path (jsLength basePath)) "/" = true then
          jsDrop path (jsLength basePath)
        else "/" ++ jsDrop path (jsLength basePath)) ∧
      jsStartsWith (resolveUrl basePath path) "/" = true) ∧
    ((jsStartsWith path basePath = false ∨ basePath = "/") →
      resolveUrl basePath path = path) := by
  constructor
  · intro h1 h2
    constructor
    · simp [resolveUrl, h1, h2]
    · by_cases h3 : jsStartsWith (jsDrop path (jsLength basePath)) "/" = true
      · simp [resolveUrl, h1, h2, h3]
      · simp [resolveUrl, h1, h2, h3, jsStartsWith_slash_append]
  · rintro (h1 | h1)
    · simp [resolveUrl, h1]
    · simp [resolveUrl, h1]

/-- C7 witness: concrete instances of both branches. -/
theorem resolveUrl_spec_witness :
    (jsStartsWith "/caldav/v2/cal" "/caldav/v2" = true ∧ "/caldav/v2" ≠ "/" ∧
      resolveUrl "/caldav/v2" "/caldav/v2/cal" = "/cal") ∧
    (jsStartsWith "/cal" "/base" = false ∧ resolveUrl "/base" "/cal" = "/cal") := by
  refine ⟨⟨by decide, by decide, ?_⟩, by decide, ?_⟩
  · exact (((resolveUrl_spec "/caldav/v2" "/caldav/v2/cal").1 (by decide) (by decide)).1).trans
      (by decide)
  · exact (resolveUrl_spec "/base" "/cal").2 (Or.inl (by decide))

/-- C4 counterexample: the stored etag `W/"abc123"` is a weak validator, yet
the update does send an If-Match header (carrying the stripped etag), so the
claim that every weak stored etag omits the header is false. -/
theorem updateIfMatch_weak_counterexample :
    isWeak (some "W/\"abc123\"") = true ∧
    updateIfMatchHeader (some "W/\"abc123\"") = some "\"abc123\"" := by
  constructor
  · decide
  · decide

/-- C4 amended: for an update whose stored etag begins with the weak marker,
the If-Match header carries the etag with the leading marker stripped and
trimmed — unless the stripped etag itself still begins with the weak marker
or is empty, in which case the header is omitted. -/
theorem updateIfMatch_weak_amended (e : String) (h : jsStartsWith e "W/" = true) :
    updateIfMatchHeader (some e) =
      (if jsStartsWith (jsTrim (stripWeakMarker e)) "W/" = true ∨
          jsTrim (stripWeakMarker e) = "" then none
       else some (jsTrim (stripWeakMarker e))) := by
  have hquote : jsStartsWith (jsTrim (stripWeakMarker e)) "W/\"" = true →
      jsStartsWith (jsTrim (stripWeakMarker e)) "W/" = true := by
    intro hq
    rw [jsStartsWith, List.isPrefixOf_iff_prefix] at hq ⊢
    exact List.IsPrefix.trans (by decide) hq
  by_cases h1 : jsStartsWith (jsTrim (stripWeakMarker e)) "W/" = true
  · have : isWeak (some (jsTrim (stripWeakMarker e))) = true := by
      simp [isWeak, h1]
    simp [updateIfMatchHeader, this, h1]
  · have hq : jsStartsWith (jsTrim (stripWeakMarker e)) "W/\"" = false := by
      cases hqq : jsStartsWith (jsTrim (stripWeakMarker e)) "W/\"" with
      | false => rfl
      | true => exact absurd (hquote hqq) h1
    have : isWeak (some (jsTrim (stripWeakMarker e))) = false := by
      simp [isWeak, h1, hq]
    by_cases h2 : jsTrim (stripWeakMarker e) = ""
    · simp [updateIfMatchHeader, this, h1, h2]
      decide
    · simp [updateIfMatchHeader, this, h1, h2]

/-- C4 witness: a weak etag whose stripped form is strong yields that
stripped form as the If-Match value. -/
theorem updateIfMatch_weak_amended_witness :
    jsStartsWith "W/\"xyz\"" "W/" = true ∧
    updateIfMatchHeader (some "W/\"xyz\"") = some "\"xyz\"" := by
  refine ⟨by decide, (updateIfMatch_weak_amended "W/\"xyz\"" (by decide)).trans (by decide)⟩

/-- C10: an absent etag, or one that is empty after stripping the weak
marker and trimming, yields no If-Match header at all — the update is
applied unconditionally. -/
theorem updateIfMatch_absent_or_empty (etag : Option String)
    (h : etag = none ∨ ∃ e, etag = some e ∧ jsTrim (stripWeakMarker e) = "") :
    updateIfMatchHeader etag = none := by
  rcases h with h | ⟨e, rfl, he⟩
  · subst h; rfl
  · simp [updateIfMatchHeader, he, isWeak, jsStartsWith]

/-- C10 witness: the etag `"W/ "` strips and trims to the empty string, and
indeed no If-Match header is produced. -/
theorem updateIfMatch_absent_or_empty_witness :
    jsTrim (stripWeakMarker "W/ ") = "" ∧ updateIfMatchHeader (some "W/ ") = none := by
  exact ⟨by decide,
    updateIfMatch_absent_or_empty (some "W/ ") (Or.inr ⟨"W/ ", rfl, by decide⟩)⟩

/-- C2: sync short-circuit — with an empty previous token or one equal to
the fetched ctag, both sync operations report `changed = false` with empty
partitions and do not issue the component reference query; otherwise they
fetch the reference list of their component kind, diff it against the local
references, and report `changed = true` with the partitions and new token. -/
theorem sync_short_circuit (srv : ServerState) (ctag : String)
    (localEvents localTodos : List ItemRef) :
    (ctag = "" ∨ ctag = srv.ctag →
      syncChanges srv ctag localEvents =
        ({ changed := false, newCtag := srv.ctag
           newItems := [], updatedItems := [], deletedItems := [] }, false) ∧
      syncTodoChanges srv ctag localTodos =
        ({ changed := false, newCtag := srv.ctag
           newItems := [], updatedItems := [], deletedItems := [] }, false)) ∧
    (ctag ≠ "" → ctag ≠ srv.ctag →
      syncChanges srv ctag localEvents =
        ({ changed := true, newCtag := srv.ctag
           newItems := (diffRefs srv.eventRefs localEvents).newItems
           updatedItems := (diffRefs srv.eventRefs localEvents).updatedItems
           deletedItems := (diffRefs srv.eventRefs localEvents).deletedItems }, true) ∧
      syncTodoChanges srv ctag localTodos =
        ({ changed := true, newCtag := srv.ctag
           newItems := (diffRefs srv.todoRefs localTodos).newItems
           updatedItems := (diffRefs srv.todoRefs localTodos).updatedItems
           deletedItems := (diffRefs srv.todoRefs localTodos).deletedItems }, true)) := by
  constructor
  · intro h
    constructor
    · simp [syncChanges, h]
    · simp [syncTodoChanges, h]
  · intro h1 h2
    constructor
    · simp [syncChanges, h1, h2]
    · simp [syncTodoChanges, h1, h2]

/-- C2 witness: with remote ctag `"abc"` matching the caller's `"abc"`, the
sync returns unchanged/empty without the reference query; with a stale
token, it returns the diff with the query issued. -/
theorem sync_short_circuit_witness :
    syncChanges ⟨"abc", [⟨"/a.ics", "1"⟩], []⟩ "abc" [] =
      ({ changed := false, newCtag := "abc"
         newItems := [], updatedItems := [], deletedItems := [] }, false) ∧
    syncChanges ⟨"new", [⟨"/a.ics", "1"⟩], []⟩ "old" [] =
      ({ changed := true, newCtag := "new"
         newItems := ["/a.ics"], updatedItems := [], deletedItems := [] }, true) := by
  constructor
  · exact ((sync_short_circuit ⟨"abc", [⟨"/a.ics", "1"⟩], []⟩ "abc" [] []).1
      (Or.inr rfl)).1
  · exact ((sync_short_circuit ⟨"new", [⟨"/a.ics", "1"⟩], []⟩ "old" [] []).2
      (by decide) (by decide)).1

/-- C5: create semantics — the target href is `{calendarUrl}/{uid}.ics`, the
write carries the create-only-if-absent condition `If-None-Match: *`,
succeeds exactly on status 201 or 204, and a 412 precondition failure raises
the UID-collision error naming the item kind. -/
theorem createItem_spec (itemType calendarUrl uid : String) (status : Nat)
    (etagHeader : Option String) (h : jsEndsWith calendarUrl "/" = false) :
    createHref calendarUrl uid = calendarUrl ++ "/" ++ uid ++ ".ics" ∧
    createIfNoneMatch = "*" ∧
    (createItemOutcome itemType calendarUrl uid status etagHeader =
        .ok uid (createHref calendarUrl uid) (etagHeader.getD "") ↔
      status = 201 ∨ status = 204) ∧
    (status = 412 →
      createItemOutcome itemType calendarUrl uid status etagHeader =
        .uidCollision
          (capitalizeFirst itemType ++ " with the specified uid already exists.")) ∧
    (status = 412 →
      createItemOutcome "event" calendarUrl uid status etagHeader =
        .uidCollision "Event with the specified uid already exists." ∧
      createItemOutcome "todo" calendarUrl uid status etagHeader =
        .uidCollision "Todo with the specified uid already exists.") := by
  refine ⟨by simp [createHref, h], rfl, ?_, ?_, ?_⟩
  · constructor
    · intro hok
      by_contra hs
      push_neg at hs
      simp [createItemOutcome, hs.1, hs.2] at hok
      split at hok <;> simp_all
    · intro hs
      rcases hs with hs | hs <;> simp [createItemOutcome, hs]
  · intro hs
    have h1 : ¬ (status = 201 ∨ status = 204) := by omega
    simp [createItemOutcome, hs, h1]
  · intro hs
    have h1 : ¬ (status = 201 ∨ status = 204) := by omega
    constructor
    · simp [createItemOutcome, hs, h1]
      decide
    · simp [createItemOutcome, hs, h1]
      decide

/-- C5 witness: a concrete create against `/cal` with uid `e1`. -/
theorem createItem_spec_witness :
    jsEndsWith "/cal" "/" = false ∧
    createHref "/cal" "e1" = "/cal/e1.ics" ∧
    createItemOutcome "event" "/cal" "e1" 412 none =
      .uidCollision "Event with the specified uid already exists." := by
  refine ⟨by decide, ?_, ?_⟩
  · exact ((createItem_spec "event" "/cal" "e1" 412 none (by decide)).1).trans (by decide)
  · exact ((createItem_spec "event" "/cal" "e1" 412 none (by decide)).2.2.2.2 rfl).1

/-- Membership reading of the JS map's `has`. -/
theorem mapHas_iff (refs : List ItemRef) (h : String) :
    mapHas refs h = true ↔ ∃ e, ItemRef.mk h e ∈ refs := by
  simp only [mapHas, List.any_eq_true, beq_iff_eq]
  constructor
  · rintro ⟨x, hmem, rfl⟩
    exact ⟨x.etag, hmem⟩
  · rintro ⟨e, hmem⟩
    exact ⟨⟨h, e⟩, hmem, rfl⟩

/-- A binding returned by the JS map's `get` is a pair of the backing list. -/
theorem mapGet_mem {refs : List ItemRef} {h e : String} (hg : mapGet refs h = some e) :
    ItemRef.mk h e ∈ refs := by
  unfold mapGet at hg
  cases hf : refs.reverse.find? (fun r => r.href == h) with
  | none => rw [hf] at hg; simp at hg
  | some r =>
    rw [hf] at hg
    simp only [Option.map_some'] at hg
    have hmem : r ∈ refs.reverse := List.mem_of_find?_eq_some hf
    have hpred := List.find?_some hf
    rw [List.mem_reverse] at hmem
    simp only [beq_iff_eq] at hpred
    obtain ⟨rh, re⟩ := r
    cases hpred
    cases hg
    exact hmem

/-- The JS map's `get` answers on every key its `has` accepts. -/
theorem mapGet_isSome_of_has {refs : List ItemRef} {h : String}
    (hh : mapHas refs h = true) : ∃ e, mapGet refs h = some e := by
  have hex : ∃ r ∈ refs.reverse, (r.href == h) = true := by
    rw [mapHas, List.any_eq_true] at hh
    obtain ⟨r, hmem, hp⟩ := hh
    exact ⟨r, List.mem_reverse.2 hmem, hp⟩
  obtain ⟨r, hfind⟩ := Option.isSome_iff_exists.mp (List.find?_isSome.2 hex)
  exact ⟨r.etag, by rw [mapGet, hfind]; rfl⟩

/-- With no duplicated hrefs, etags are determined by their href. -/
theorem href_etag_unique {refs : List ItemRef} (hn : (refs.map ItemRef.href).Nodup)
    {h a b : String} (ha : ItemRef.mk h a ∈ refs) (hb : ItemRef.mk h b ∈ refs) :
    a = b := by
  have := List.inj_on_of_nodup_map hn ha hb rfl
  exact congrArg ItemRef.etag this

/-- With no duplicated hrefs, the JS map's `get` reads off the unique pair. -/
theorem mapGet_eq_some_iff {refs : List ItemRef}
    (hn : (refs.map ItemRef.href).Nodup) {h e : String} :
    mapGet refs h = some e ↔ ItemRef.mk h e ∈ refs := by
  constructor
  · exact mapGet_mem
  · intro hmem
    obtain ⟨e2, hg⟩ := mapGet_isSome_of_has ((mapHas_iff refs h).2 ⟨e, hmem⟩)
    have he2 : e2 = e := href_etag_unique hn (mapGet_mem hg) hmem
    rw [← he2]
    exact hg

/-- C1: `diffRefs` partition correctness — over reference lists without
duplicated hrefs, `newItems` is exactly the remote-only hrefs, `updatedItems`
exactly the hrefs on both sides with differing etags, `deletedItems` exactly
the local-only hrefs; an href matched with equal etags lands in none of the
three, and identical reference sets produce three empty partitions. -/
theorem diffRefs_partition (remote localRefs : List ItemRef)
    (hr : (remote.map ItemRef.href).Nodup) (hl : (localRefs.map ItemRef.href).Nodup) :
    (∀ h, h ∈ (diffRefs remote localRefs).newItems ↔
      (∃ e, ItemRef.mk h e ∈ remote) ∧ ¬ ∃ e, ItemRef.mk h e ∈ localRefs) ∧
    (∀ h, h ∈ (diffRefs remote localRefs).updatedItems ↔
      ∃ er el, ItemRef.mk h er ∈ remote ∧ ItemRef.mk h el ∈ localRefs ∧ er ≠ el) ∧
    (∀ h, h ∈ (diffRefs remote localRefs).deletedItems ↔
      (∃ e, ItemRef.mk h e ∈ localRefs) ∧ ¬ ∃ e, ItemRef.mk h e ∈ remote) ∧
    (∀ h e, ItemRef.mk h e ∈ remote → ItemRef.mk h e ∈ localRefs →
      h ∉ (diffRefs remote localRefs).newItems ∧
      h ∉ (diffRefs remote localRefs).updatedItems ∧
      h ∉ (diffRefs remote localRefs).deletedItems) ∧
    ((∀ r : ItemRef, r ∈ remote ↔ r ∈ localRefs) →
      diffRefs remote localRefs = ⟨[], [], []⟩) := by
  have hnew : ∀ h, h ∈ (diffRefs remote localRefs).newItems ↔
      (∃ e, ItemRef.mk h e ∈ remote) ∧ ¬ ∃ e, ItemRef.mk h e ∈ localRefs := by
    intro h
    simp only [diffRefs, List.mem_map, List.mem_filter, Bool.not_eq_true']
    constructor
    · rintro ⟨r, ⟨hmem, hno⟩, rfl⟩
      refine ⟨⟨r.etag, hmem⟩, ?_⟩
      rintro ⟨e, he⟩
      rw [(mapHas_iff localRefs r.href).2 ⟨e, he⟩] at hno
      cases hno
    · rintro ⟨⟨e, hmem⟩, hno⟩
      refine ⟨⟨h, e⟩, ⟨hmem, ?_⟩, rfl⟩
      cases hhas : mapHas localRefs h with
      | false => rfl
      | true => exact absurd ((mapHas_iff _ _).1 hhas) hno
  have hupd : ∀ h, h ∈ (diffRefs remote localRefs).updatedItems ↔
      ∃ er el, ItemRef.mk h er ∈ remote ∧ ItemRef.mk h el ∈ localRefs ∧ er ≠ el := by
    intro h
    simp only [diffRefs, List.mem_map, List.mem_filter, Bool.and_eq_true,
      Bool.not_eq_true']
    constructor
    · rintro ⟨r, ⟨hmem, hhas, hne⟩, rfl⟩
      obtain ⟨el, hget⟩ := mapGet_isSome_of_has hhas
      refine ⟨r.etag, el, hmem, mapGet_mem hget, ?_⟩
      intro heq
      rw [hget, ← heq] at hne
      simp at hne
    · rintro ⟨er, el, hrm, hlm, hne⟩
      refine ⟨⟨h, er⟩, ⟨hrm, (mapHas_iff _ _).2 ⟨el, hlm⟩, ?_⟩, rfl⟩
      have hget : mapGet localRefs h = some el := (mapGet_eq_some_iff hl).2 hlm
      rw [hget]
      simpa using fun hc => hne hc.symm
  have hdel : ∀ h, h ∈ (diffRefs remote localRefs).deletedItems ↔
      (∃ e, ItemRef.mk h e ∈ localRefs) ∧ ¬ ∃ e, ItemRef.mk h e ∈ remote := by
    intro h
    simp only [diffRefs, List.mem_map, List.mem_filter, Bool.not_eq_true']
    constructor
    · rintro ⟨r, ⟨hmem, hno⟩, rfl⟩
      refine ⟨⟨r.etag, hmem⟩, ?_⟩
      rintro ⟨e, he⟩
      rw [(mapHas_iff remote r.href).2 ⟨e, he⟩] at hno
      cases hno
    · rintro ⟨⟨e, hmem⟩, hno⟩
      refine ⟨⟨h, e⟩, ⟨hmem, ?_⟩, rfl⟩
      cases hhas : mapHas remote h with
      | false => rfl
      | true => exact absurd ((mapHas_iff _ _).1 hhas) hno
  refine ⟨hnew, hupd, hdel, ?_, ?_⟩
  · intro h e hrm hlm
    refine ⟨?_, ?_, ?_⟩
    · intro hmem
      exact ((hnew h).1 hmem).2 ⟨e, hlm⟩
    · intro hmem
      obtain ⟨er, el, hrm2, hlm2, hne⟩ := (hupd h).1 hmem
      have h1 : er = e := href_etag_unique hr hrm2 hrm
      have h2 : el = e := href_etag_unique hl hlm2 hlm
      exact hne (h1.trans h2.symm)
    · intro hmem
      exact ((hdel h).1 hmem).2 ⟨e, hrm⟩
  · intro hiff
    have e1 : (diffRefs remote localRefs).newItems = [] := by
      rw [List.eq_nil_iff_forall_not_mem]
      intro h hmem
      obtain ⟨⟨e, hmem'⟩, hno⟩ := (hnew h).1 hmem
      exact hno ⟨e, (hiff _).1 hmem'⟩
    have e2 : (diffRefs remote localRefs).updatedItems = [] := by
      rw [List.eq_nil_iff_forall_not_mem]
      intro h hmem
      obtain ⟨er, el, hrm, hlm, hne⟩ := (hupd h).1 hmem
      exact hne (href_etag_unique hl ((hiff _).1 hrm) hlm)
    have e3 : (diffRefs remote localRefs).deletedItems = [] := by
      rw [List.eq_nil_iff_forall_not_mem]
      intro h hmem
      obtain ⟨⟨e, hmem'⟩, hno⟩ := (hdel h).1 hmem
      exact hno ⟨e, (hiff _).2 hmem'⟩
    calc diffRefs remote localRefs
        = ⟨(diffRefs remote localRefs).newItems,
           (diffRefs remote localRefs).updatedItems,
           (diffRefs remote localRefs).deletedItems⟩ := rfl
      _ = ⟨[], [], []⟩ := by rw [e1, e2, e3]

/-- C1 witness: identical one-element reference sets produce three empty
partitions. -/
theorem diffRefs_partition_witness :
    ([ItemRef.mk "/a.ics" "1"].map ItemRef.href).Nodup ∧
    diffRefs [ItemRef.mk "/a.ics" "1"] [ItemRef.mk "/a.ics" "1"] = ⟨[], [], []⟩ := by
  refine ⟨by decide, ?_⟩
  exact (diffRefs_partition [ItemRef.mk "/a.ics" "1"] [ItemRef.mk "/a.ics" "1"]
    (by decide) (by decide)).2.2.2.2 (fun r => Iff.rfl)

/-- Selection of the first successful propstat block: any prefix of failing
blocks is skipped over. -/
theorem okPropstat_first : ∀ (l1 l2 : List CalPropstat) (p : CalPropstat),
    (∀ q ∈ l1, okStatus q = false) → okStatus p = true →
    okPropstat (l1 ++ p :: l2) = some p
  | [], l2, p, _, h2 => by
    rw [List.nil_append, okPropstat]
    exact List.find?_cons_of_pos _ h2
  | a :: as, l2, p, h1, h2 => by
    rw [List.cons_append, okPropstat,
      List.find?_cons_of_neg _ (by simp [h1 a (by simp)])]
    exact okPropstat_first as l2 p (fun q hq => h1 q (by simp [hq])) h2

/-- C6: calendar-listing filter — every surfaced calendar supports VEVENT or
VTODO and reports only known component kinds; the selected block is the
first one whose status contains "200 ok" case-insensitively; an entry with
no such block is skipped without error; a selected block whose known
components contain neither VEVENT nor VTODO (e.g. only VJOURNAL) is
excluded; otherwise the calendar is kept with the intersected component
set. -/
theorem parseCalendars_spec :
    (∀ (rs : List CalResponse) (cal : Calendar), cal ∈ parseCalendars rs →
      ("VEVENT" ∈ cal.supportedComponents ∨ "VTODO" ∈ cal.supportedComponents) ∧
      ∀ c ∈ cal.supportedComponents, c ∈ knownComponents) ∧
    (∀ (l1 l2 : List CalPropstat) (p : CalPropstat),
      (∀ q ∈ l1, okStatus q = false) → okStatus p = true →
      okPropstat (l1 ++ p :: l2) = some p) ∧
    (∀ (res : CalResponse) (rs : List CalResponse),
      okPropstat res.propstats = none →
      parseCalendars (res :: rs) = parseCalendars rs) ∧
    (∀ (res : CalResponse) (ps : CalPropstat),
      okPropstat res.propstats = some ps →
      "VEVENT" ∉ supportedOf ps → "VTODO" ∉ supportedOf ps →
      processCalResponse res = none) ∧
    (∀ (res : CalResponse) (ps : CalPropstat),
      okPropstat res.propstats = some ps →
      ("VEVENT" ∈ supportedOf ps ∨ "VTODO" ∈ supportedOf ps) →
      processCalResponse res = some
        { displayName := (ps.prop.bind CalProp.displayname).getD ""
          url := res.href
          ctag := ps.prop.bind CalProp.getctag
          supportedComponents := supportedOf ps }) := by
  refine ⟨?_, okPropstat_first, ?_, ?_, ?_⟩
  · intro rs cal hmem
    rw [parseCalendars, List.mem_filterMap] at hmem
    obtain ⟨res, _, hp⟩ := hmem
    rw [processCalResponse] at hp
    cases hok : okPropstat res.propstats with
    | none => rw [hok] at hp; cases hp
    | some ps =>
      rw [hok] at hp
      dsimp only at hp
      split at hp
      · cases hp
      · cases hp
        rename_i hcond
        dsimp only
        rw [Bool.not_eq_true, Bool.and_eq_false_iff] at hcond
        constructor
        · rcases hcond with hc | hc <;> rw [Bool.not_eq_false'] at hc
          · exact Or.inl (by simpa using hc)
          · exact Or.inr (by simpa using hc)
        · intro c hc
          rw [supportedOf, List.mem_filter] at hc
          simpa using hc.2
  · intro res rs h
    simp [parseCalendars, List.filterMap_cons, processCalResponse, h]
  · intro res ps hok h1 h2
    rw [processCalResponse, hok]
    dsimp only
    rw [if_pos]
    simp only [Bool.and_eq_true, Bool.not_eq_true']
    constructor <;> simpa
  · intro res ps hok hor
    rw [processCalResponse, hok]
    dsimp only
    rw [if_neg]
    simp only [Bool.and_eq_true, Bool.not_eq_true']
    rintro ⟨h1, h2⟩
    rcases hor with h | h
    · rw [show (supportedOf ps).contains "VEVENT" = true by simpa] at h1
      cases h1
    · rw [show (supportedOf ps).contains "VTODO" = true by simpa] at h2
      cases h2

/-- C6 witness: an entry whose first successful block supports only VJOURNAL
is excluded, while a VEVENT-supporting sibling is kept. -/
theorem parseCalendars_spec_witness :
    okPropstat [⟨some "HTTP/1.1 200 OK", some ⟨some "Journal", some "c1", ["VJOURNAL"]⟩⟩] =
      some ⟨some "HTTP/1.1 200 OK", some ⟨some "Journal", some "c1", ["VJOURNAL"]⟩⟩ ∧
    processCalResponse
      ⟨"/cal/j", [⟨some "HTTP/1.1 200 OK", some ⟨some "Journal", some "c1", ["VJOURNAL"]⟩⟩]⟩ =
      none ∧
    parseCalendars
      [⟨"/cal/j", [⟨some "HTTP/1.1 200 OK", some ⟨some "Journal", some "c1", ["VJOURNAL"]⟩⟩]⟩,
       ⟨"/cal/e", [⟨some "HTTP/1.1 200 OK", some ⟨some "Events", some "c2", ["VEVENT"]⟩⟩]⟩] =
      [⟨"Events", "/cal/e", some "c2", ["VEVENT"]⟩] := by
  refine ⟨by decide, ?_, by decide⟩
  exact (parseCalendars_spec.2.2.2.1
    ⟨"/cal/j", [⟨some "HTTP/1.1 200 OK", some ⟨some "Journal", some "c1", ["VJOURNAL"]⟩⟩]⟩
    ⟨some "HTTP/1.1 200 OK", some ⟨some "Journal", some "c1", ["VJOURNAL"]⟩⟩
    (by decide) (by decide) (by decide))

/-- C8: whole-day encoding — for every event with `wholeDay = true`, the
built VEVENT carries DTSTART and DTEND as date-only values (date flag set,
zero time of day) with no parameters, in particular no timezone
identifier. -/
theorem buildICSData_wholeDay (prodId uid : String) (event : EventInput) (now : JSDate)
    (h : event.wholeDay = true) :
    ((buildICSData prodId event uid now).getAllSubcomponents "vevent").length = 1 ∧
    (∀ vevent ∈ (buildICSData prodId event uid now).getAllSubcomponents "vevent",
      vevent.getFirstProperty "dtstart" =
        some ⟨"dtstart", [], .time (ICalTime.fromDateOnly event.start)⟩ ∧
      vevent.getFirstProperty "dtend" =
        some ⟨"dtend", [], .time (ICalTime.fromDateOnly event.«end»)⟩) ∧
    ((ICalTime.fromDateOnly event.start).isDate = true ∧
     (ICalTime.fromDateOnly event.start).hour = 0 ∧
     (ICalTime.fromDateOnly event.start).minute = 0 ∧
     (ICalTime.fromDateOnly event.start).second = 0) ∧
    ((ICalTime.fromDateOnly event.«end»).isDate = true ∧
     (ICalTime.fromDateOnly event.«end»).hour = 0 ∧
     (ICalTime.fromDateOnly event.«end»).minute = 0 ∧
     (ICalTime.fromDateOnly event.«end»).second = 0) ∧
    (∀ p : ICalProp,
      p = ⟨"dtstart", [], .time (ICalTime.fromDateOnly event.start)⟩ ∨
      p = ⟨"dtend", [], .time (ICalTime.fromDateOnly event.«end»)⟩ →
      p.getParameter "tzid" = none) := by
  have hb : buildDtProps event =
      [⟨"dtstart", [], .time (ICalTime.fromDateOnly event.start)⟩,
       ⟨"dtend", [], .time (ICalTime.fromDateOnly event.«end»)⟩] := by
    simp [buildDtProps, h]
  refine ⟨?_, ?_, ⟨rfl, rfl, rfl, rfl⟩, ⟨rfl, rfl, rfl, rfl⟩, ?_⟩
  · simp [buildICSData, ICalComp.getAllSubcomponents, ICalComp.subs, ICalComp.name]
  · intro vevent hv
    simp only [buildICSData, ICalComp.getAllSubcomponents, ICalComp.subs, ICalComp.name,
      List.filter, beq_self_eq_true, List.mem_singleton] at hv
    subst hv
    constructor
    · simp [ICalComp.getFirstProperty, ICalComp.props, hb, List.find?_cons]
    · simp [ICalComp.getFirstProperty, ICalComp.props, hb, List.find?_cons]
  · rintro p (rfl | rfl) <;> rfl

/-- C8 witness: the spec's example, a whole-day event spanning 2024-03-01 to
2024-03-02. -/
theorem buildICSData_wholeDay_witness :
    (EventInput.mk "Offsite" ⟨2024, 3, 1, 0, 0, 0⟩ ⟨2024, 3, 2, 0, 0, 0⟩ none none true
        none none none []).wholeDay = true ∧
    (∀ vevent ∈ (buildICSData "-//test//EN"
        (EventInput.mk "Offsite" ⟨2024, 3, 1, 0, 0, 0⟩ ⟨2024, 3, 2, 0, 0, 0⟩ none none true
          none none none []) "u1" ⟨2024, 3, 1, 0, 0, 0⟩).getAllSubcomponents "vevent",
      vevent.getFirstProperty "dtstart" =
        some ⟨"dtstart", [], .time ⟨2024, 3, 1, 0, 0, 0, true⟩⟩ ∧
      vevent.getFirstProperty "dtend" =
        some ⟨"dtend", [], .time ⟨2024, 3, 2, 0, 0, 0, true⟩⟩) := by
  refine ⟨rfl, ?_⟩
  exact (buildICSData_wholeDay "-//test//EN" "u1"
    (EventInput.mk "Offsite" ⟨2024, 3, 1, 0, 0, 0⟩ ⟨2024, 3, 2, 0, 0, 0⟩ none none true
      none none none []) ⟨2024, 3, 1, 0, 0, 0⟩ rfl).2.1

/-- C9: per-item fault isolation — an entry whose calendar-object text the
codec rejects contributes nothing, and the batch parse of events and of
todos returns exactly the results of the sibling entries. -/
theorem parse_fault_isolation (pre post : List ObjResponse) (bad : ObjResponse)
    (err : String) (h : bad.calendarData = some (.error err)) :
    parseEvents (pre ++ bad :: post) = parseEvents pre ++ parseEvents post ∧
    parseTodos (pre ++ bad :: post) = parseTodos pre ++ parseTodos post := by
  constructor
  · simp [parseEvents, h]
  · simp [parseTodos, h]

/-- C9 witness: a malformed middle entry is dropped while its two siblings'
events are both returned. -/
theorem parse_fault_isolation_witness :
    (ObjResponse.mk "/b.ics" (some "\"e2\"") (some (.error "invalid ics"))).calendarData =
      some (.error "invalid ics") ∧
    parseEvents
      [⟨"/a.ics", some "\"e1\"",
        some (.ok (.mk "vcalendar" []
          [.mk "vevent" [⟨"uid", [], .str "a"⟩,
            ⟨"dtstart", [], .time ⟨2024, 1, 1, 9, 0, 0, false⟩⟩] []]))⟩,
       ⟨"/b.ics", some "\"e2\"", some (.error "invalid ics")⟩,
       ⟨"/c.ics", some "\"e3\"",
        some (.ok (.mk "vcalendar" []
          [.mk "vevent" [⟨"uid", [], .str "c"⟩,
            ⟨"dtstart", [], .time ⟨2024, 1, 2, 9, 0, 0, false⟩⟩] []]))⟩] =
      parseEvents
        [⟨"/a.ics", some "\"e1\"",
          some (.ok (.mk "vcalendar" []
            [.mk "vevent" [⟨"uid", [], .str "a"⟩,
              ⟨"dtstart", [], .time ⟨2024, 1, 1, 9, 0, 0, false⟩⟩] []]))⟩] ++
      parseEvents
        [⟨"/c.ics", some "\"e3\"",
          some (.ok (.mk "vcalendar" []
            [.mk "vevent" [⟨"uid", [], .str "c"⟩,
              ⟨"dtstart", [], .time ⟨2024, 1, 2, 9, 0, 0, false⟩⟩] []]))⟩] := by
  refine ⟨rfl, ?_⟩
  exact (parse_fault_isolation
    [⟨"/a.ics", some "\"e1\"",
      some (.ok (.mk "vcalendar" []
        [.mk "vevent" [⟨"uid", [], .str "a"⟩,
          ⟨"dtstart", [], .time ⟨2024, 1, 1, 9, 0, 0, false⟩⟩] []]))⟩]
    [⟨"/c.ics", some "\"e3\"",
      some (.ok (.mk "vcalendar" []
        [.mk "vevent" [⟨"uid", [], .str "c"⟩,
          ⟨"dtstart", [], .time ⟨2024, 1, 2, 9, 0, 0, false⟩⟩] []]))⟩]
    ⟨"/b.ics", some "\"e2\"", some (.error "invalid ics")⟩ "invalid ics" rfl).1

/-- The spec's round-trip example event: uid `e1`, summary `Standup`,
2024-01-01T09:00:00Z to 2024-01-01T09:30:00Z, weekly on Monday. -/
def standupEvent : EventInput :=
  { summary := "Standup"
    start := ⟨2024, 1, 1, 9, 0, 0⟩
    «end» := ⟨2024, 1, 1, 9, 30, 0⟩
    description := none
    location := none
    wholeDay := false
    recurrenceRule := some
      { freq := some "WEEKLY", interval := none, count := none, «until» := none
        byday := some ["MO"], bymonthday := none, bymonth := none }
    startTzid := none
    endTzid := none
    alarms := [] }

/-- C3: encode/decode round-trip — building the calendar object for the
Standup event with uid `e1` and decoding it back yields a single event whose
uid, summary, start, end, recurrence frequency and by-day list equal the
originals. -/
theorem roundTrip_standup (prodId etag href : String) (now : JSDate) :
    ∃ e, decodeVEvents (buildICSData prodId standupEvent "e1" now) etag href = [e] ∧
      e.uid = "e1" ∧ e.summary = "Standup" ∧
      e.start = standupEvent.start ∧ e.«end» = standupEvent.«end» ∧
      ∃ rr, e.recurrenceRule = some rr ∧
        rr.freq = some "WEEKLY" ∧ rr.byday = some ["MO"] := by
  refine ⟨{ uid := "e1", summary := "Standup"
            start := ⟨2024, 1, 1, 9, 0, 0⟩, «end» := ⟨2024, 1, 1, 9, 30, 0⟩
            description := none, location := none, etag := etag, href := href
            wholeDay := false
            recurrenceRule := some
              { freq := some "WEEKLY", interval := some 1, count := none
                «until» := none, byday := some ["MO"], bymonthday := none
                bymonth := none }
            startTzid := none, endTzid := none, alarms := [] },
    ?_, rfl, rfl, rfl, rfl, ⟨_, rfl, rfl, rfl⟩⟩
  rfl

end TsCalDAV
